import Mathlib

/-!
Verification development for the tezsign keychain core and broker.

The definitions below are shallow embeddings of the Go source:
  * `src/keychain/keyring.go` : `SIGN_KIND`, `HighWatermark`, `gKey`,
    `KeyRing.SignAndUpdate`, `KeyRing.SetLevel`, watermark handling;
  * `src/keychain/store.go`   : `FileStore.hasKey`, `FileStore.list`,
    `FileStore.unlock`, `readKeyStateFile`, `FileStore.readKeyState`;
  * `src/unnamed/part_000` (package broker) : `Broker.Request`,
    `Broker.processStash` request/response/cancellation handling.

Machine integers (uint64 levels, uint32 rounds) are modelled as `Nat`;
none of the verified operations can overflow them (they only compare and
copy values).  Effects of cryptographic primitives (AES-GCM open/seal,
scalar deserialization) and of disk I/O are modelled as boolean oracles:
the control flow of the source branches only on their success.
-/

/-- Sign kinds, from `keyring.go`.  The byte codes are 0x11 (BLOCK),
0x12 (PREATTESTATION), 0x13 (ATTESTATION).  `UNSPECIFIED` (0x00) is never
produced by the payload validator, which admits exactly the three codes,
so the embedding omits it; `signKinds()` in the source also lists exactly
these three. -/
inductive SIGN_KIND where
  | BLOCK
  | PREATTESTATION
  | ATTESTATION
deriving DecidableEq, Repr

/-- The list returned by `signKinds()` in `keyring.go`. -/
def signKindsList : List SIGN_KIND := [.BLOCK, .PREATTESTATION, .ATTESTATION]

/-- `HighWatermark` from `keyring.go`: `level uint64`, `round uint32`. -/
structure HighWatermark where
  level : Nat
  round : Nat
deriving DecidableEq, Repr

/-- The monotonicity relation of `SignAndUpdate` (`keyring.go` line 455):
`level > prev.level || (level == prev.level && round > prev.round)`,
i.e. strict lexicographic order on `(level, round)`. -/
def wmLt (prev next : HighWatermark) : Prop :=
  next.level > prev.level ∨ (next.level = prev.level ∧ next.round > prev.round)

instance (prev next : HighWatermark) : Decidable (wmLt prev next) := by
  unfold wmLt; infer_instance

/-- Reflexive closure of `wmLt`. -/
def wmLe (a b : HighWatermark) : Prop := a = b ∨ wmLt a b

/-- `KindState` protobuf message stored in `level.bin`:
`(Level : uint64, Round : uint32)`. -/
structure KindState where
  Level : Nat
  Round : Nat
deriving DecidableEq, Repr

/-- `KeyState.ByKind` is a Go map `int32 -> *KindState`.  Only the three
sign-kind codes are ever written (`gKey.GetKeyState`) or consulted
(`gKey.applyKeyStateLocked`, the merge in `readKeyState`), so the
embedding keys the map by `SIGN_KIND`; `none` models an absent entry. -/
def KeyStateMap := SIGN_KIND → Option KindState

/-- `GetLevel()` on a possibly-absent protobuf entry: 0 when absent. -/
def getLevel : Option KindState → Nat
  | none => 0
  | some s => s.Level

/-- In-memory per-key runtime record `gKey` from `keyring.go`.  The byte
slices `dek`, `encSecret`, `dataNonce` are modelled by their presence
(`nil` versus non-`nil` is all the verified control flow inspects). -/
structure GKey where
  dekPresent : Bool
  encSecretPresent : Bool
  dataNoncePresent : Bool
  watermark : SIGN_KIND → HighWatermark
  stateCorrupted : Bool

/-- `gKey.GetKeyState` from `keyring.go`: every sign kind maps to its
current watermark. -/
def GetKeyState (k : GKey) : KeyStateMap :=
  fun sk => some ⟨(k.watermark sk).level, (k.watermark sk).round⟩

/-- Error outcomes of `SignAndUpdate` (the distinct `return` sites of
`keyring.go` lines 435-507). -/
inductive SignError where
  | badPayload
  | keyNotFound
  | keyLocked
  | staleWatermark
  | corruptedSecret
  | secretLengthInvalid
  | invalidScalar
  | persistFailed
deriving DecidableEq, Repr

/-- Environmental effects `SignAndUpdate` branches on: success of the
AES-GCM open of the encrypted scalar, its length check, scalar
deserialization (`sk.FromLEndian`), and of persisting `level.bin`
(`writeKeyState`). -/
structure SignEnv where
  decryptOk : Bool
  secretLen32 : Bool
  scalarOk : Bool
  persistOk : Bool
deriving DecidableEq, Repr

/-- Result of one `SignAndUpdate` call: the returned error (if any), the
key's in-memory state afterwards, the number of `key.mu.Unlock()`
executions on the taken path (counting the deferred unlock), and the key
state durably written to `level.bin` (when the write succeeded). -/
structure SignOutcome where
  err : Option SignError
  key : GKey
  unlockCalls : Nat
  persistedState : Option KeyStateMap

/-- `KeyRing.SignAndUpdate` (`keyring.go` lines 435-507), starting after
payload decoding and tz4 resolution (decode failure returns
`ErrBadPayload` and a missing key `ErrKeyNotFound` before the per-key
mutex is taken; neither path is relevant to the claims below).  The
mutex is acquired on entry with `defer key.mu.Unlock()` pending, hence
every path ends with at least one unlock.  On the AES-GCM decrypt
failure path the source additionally executes an explicit
`key.mu.Unlock()` (line 468) before returning, so that path performs two
unlocks.  On success the goroutine updates `watermark[knd]` and persists
the full key state; the call returns only after the persistence result
is joined, and a persistence failure leaves the in-memory watermark
already advanced. -/
def SignAndUpdate (key : GKey) (knd : SIGN_KIND) (level round : Nat)
    (env : SignEnv) : SignOutcome :=
  if key.dekPresent = false ∨ key.encSecretPresent = false ∨ key.dataNoncePresent = false then
    { err := some .keyLocked, key := key, unlockCalls := 1, persistedState := none }
  else if ¬ wmLt (key.watermark knd) ⟨level, round⟩ then
    { err := some .staleWatermark, key := key, unlockCalls := 1, persistedState := none }
  else if env.decryptOk = false then
    { err := some .corruptedSecret, key := key, unlockCalls := 2, persistedState := none }
  else if env.secretLen32 = false then
    { err := some .secretLengthInvalid, key := key, unlockCalls := 1, persistedState := none }
  else if env.scalarOk = false then
    { err := some .invalidScalar, key := key, unlockCalls := 1, persistedState := none }
  else
    let key' : GKey :=
      { key with watermark := fun k => if k = knd then ⟨level, round⟩ else key.watermark k }
    if env.persistOk = false then
      { err := some .persistFailed, key := key', unlockCalls := 1, persistedState := none }
    else
      { err := none, key := { key' with stateCorrupted := false }, unlockCalls := 1,
        persistedState := some (GetKeyState key') }

/-- Error outcomes of `KeyRing.SetLevel` (`keyring.go` lines 509-544). -/
inductive SetLevelError where
  | keyLockedNoEntry
  | unknownKey
  | keyLocked
  | levelNotGreater
  | persistFailed
deriving DecidableEq, Repr

/-- Result of one `SetLevel` call: the returned error (if any), the
in-memory entry afterwards, and the key state durably written (when the
write succeeded). -/
structure SetLevelOutcome where
  err : Option SetLevelError
  key : Option GKey
  persistedState : Option KeyStateMap

/-- `KeyRing.SetLevel` (`keyring.go` lines 509-544).  `entry` is the
in-memory `gKey` looked up by alias (`none` when absent from the
registry), `hasOnDisk` is `store.hasKey(id)`, `persistOk` the success of
`writeKeyState`.  The level must strictly exceed every existing per-kind
level; on success all three per-kind watermarks become `(level, 0)` and
the new state is written before returning.  A failed write leaves the
in-memory watermarks already advanced (the source mutates first). -/
def SetLevel (entry : Option GKey) (hasOnDisk : Bool) (level : Nat)
    (persistOk : Bool) : SetLevelOutcome :=
  match entry with
  | none =>
    if hasOnDisk then
      { err := some .keyLockedNoEntry, key := none, persistedState := none }
    else
      { err := some .unknownKey, key := none, persistedState := none }
  | some key =>
    if key.dekPresent = false then
      { err := some .keyLocked, key := some key, persistedState := none }
    else if signKindsList.any (fun k => decide (level ≤ (key.watermark k).level)) then
      { err := some .levelNotGreater, key := some key, persistedState := none }
    else
      let key' : GKey := { key with watermark := fun _ => ⟨level, 0⟩ }
      if persistOk = false then
        { err := some .persistFailed, key := some key', persistedState := none }
      else
        { err := none, key := some { key' with stateCorrupted := false },
          persistedState := some (GetKeyState key') }

/-!  File store: key existence and key-state reading (`store.go`). -/

/-- One entry of the `keys/` directory as the store sees it: its name,
whether it is a directory, and which of the two bundle files are
present. -/
structure KeyDirEntry where
  name : String
  isDir : Bool
  hasMeta : Bool
  hasBin : Bool
deriving DecidableEq, Repr

/-- `FileStore.hasKey` (`store.go` lines 415-419): it stats `meta.json`
only; `encrypted.bin` is not consulted. -/
def hasKey (e : KeyDirEntry) : Bool := e.hasMeta

/-- `FileStore.list` (`store.go` lines 275-296): directory entries that
are directories and pass `hasKey`.  The source sorts the ids; ordering
is irrelevant to membership so the sort is omitted here. -/
def storeList (entries : List KeyDirEntry) : List String :=
  (entries.filter (fun e => e.isDir && hasKey e)).map (fun e => e.name)

/-- The duplicate-alias guard of `FileStore.createKey` (`store.go` line
306): `if fs.hasKey(id) { return ErrKeyExists }`. -/
def createKeyCollides (e : KeyDirEntry) : Bool := hasKey e

/-- Error outcomes of `FileStore.unlock` (`store.go` lines 373-405), one
per distinct `return` site.  `metaReadFailed` is the error for a
non-existent key (`readJSON` on a missing `meta.json` surfaces the
file-not-found error); `badPasswordOrCorrupt` is the
`"bad password or corrupted key (unwrap)"` error produced when the
AES-GCM open of the wrapped DEK fails, which is what a wrong master
password causes (the KEK derived from it fails authentication). -/
inductive UnlockError where
  | metaReadFailed
  | binReadFailed
  | bundleDecodeFailed
  | badPasswordOrCorrupt
deriving DecidableEq, Repr

/-- The conditions `FileStore.unlock` branches on.  `unwrapOk` is the
success of `gcmKEK.Open` of the wrapped DEK: it holds exactly when the
password-derived KEK matches and the stored bundle is intact.  (KEK
derivation and AES-GCM construction cannot fail for a well-formed
`master.json`: Argon2id always yields `KeyLen` bytes.) -/
structure UnlockEnv where
  metaPresent : Bool
  binPresent : Bool
  bundleOk : Bool
  unwrapOk : Bool
deriving DecidableEq, Repr

/-- `FileStore.unlock` (`store.go` lines 373-405), reduced to its error
observation (the returned materials are opaque to the claims here). -/
def storeUnlock (e : UnlockEnv) : Except UnlockError Unit :=
  if e.metaPresent = false then .error .metaReadFailed
  else if e.binPresent = false then .error .binReadFailed
  else if e.bundleOk = false then .error .bundleDecodeFailed
  else if e.unwrapOk = false then .error .badPasswordOrCorrupt
  else .ok ()

/-- State of one on-disk key-state file (`level.bin` or `level.bin.tmp`)
as `readKeyStateFile` observes it: absent, unreadable (hard I/O error),
corrupt (too short, AES-GCM authentication failure, or protobuf
unmarshal failure — all wrap `ErrKeyStateCorrupted`), or valid with
decrypted contents. -/
inductive StateFile where
  | absent
  | ioFail
  | corrupt
  | valid (ks : KeyStateMap)

/-- Errors of `readKeyStateFile` / `readKeyState`. -/
inductive StateReadError where
  | corrupted
  | ioError
  | badDEK
deriving DecidableEq, Repr

/-- `readKeyStateFile` (`store.go` lines 549-581) returns
`(state?, missing, error?)`: a missing file yields an empty state with
`missing = true`; a hard read error or a corruption is an error. -/
def readKeyStateFile : StateFile → Option KeyStateMap × Bool × Option StateReadError
  | .absent => (some (fun _ => none), true, none)
  | .ioFail => (none, false, some .ioError)
  | .corrupt => (none, false, some .corrupted)
  | .valid ks => (some ks, false, none)

/-- The merge loop of `readKeyState` (`store.go` lines 600-605): for each
entry of the backup, it replaces the main entry when the main entry is
absent or the backup's level is strictly larger; entries only in the
main state are kept. -/
def mergeKeyStates (main backup : KeyStateMap) : KeyStateMap :=
  fun k =>
    match main k, backup k with
    | some m, some b => if b.Level > m.Level then some b else some m
    | some m, none => some m
    | none, some b => some b
    | none, none => none

/-- Result of `FileStore.readKeyState`: `(state?, missingAll, corrupted,
error?)`. -/
structure KeyStateReadResult where
  state : Option KeyStateMap
  missingAll : Bool
  corrupted : Bool
  err : Option StateReadError

/-- `FileStore.readKeyState` (`store.go` lines 585-615): rejects a DEK
that is not 32 bytes, reads both `level.bin` and `level.bin.tmp`, and
combines them: both readable → per-kind merge picking the larger level;
exactly one readable → that one; neither → the main file's error.
A file "reads" successfully also when absent (empty state). -/
def readKeyState (dekLen : Nat) (main backup : StateFile) : KeyStateReadResult :=
  if dekLen ≠ 32 then
    { state := none, missingAll := false, corrupted := false, err := some .badDEK }
  else
    let (ks, missing, err) := readKeyStateFile main
    let (bks, bmissing, berr) := readKeyStateFile backup
    let missingAll := missing && bmissing
    let corrupted := err = some .corrupted || berr = some .corrupted
    match err, ks, berr, bks with
    | none, some s, none, some bs =>
      { state := some (mergeKeyStates s bs), missingAll := missingAll,
        corrupted := corrupted, err := none }
    | none, some s, _, _ =>
      { state := some s, missingAll := missingAll, corrupted := corrupted, err := none }
    | _, _, none, some bs =>
      { state := some bs, missingAll := missingAll, corrupted := corrupted, err := none }
    | e, _, _, _ =>
      { state := none, missingAll := missingAll, corrupted := corrupted, err := e }

/-!  Broker (`src/unnamed/part_000`, package broker). -/

/-- Modelled from the spec: the constant `MAX_MESSAGE_PAYLOAD` is not
among the provided sources; the spec fixes the maximum payload at
16 MiB (sections 3 and 6). -/
def MAX_MESSAGE_PAYLOAD : Nat := 16 * 1024 * 1024

/-- `int(^uint32(0))`: the first size guard of `Broker.Request`. -/
def UINT32_MAX : Nat := 4294967295

/-- Error outcomes of the size guards of `Broker.Request`
(`part_000` lines 114-123), one per distinct `return` site. -/
inductive RequestError where
  | tooLargeUint32
  | exceedsMaxMessagePayload
deriving DecidableEq, Repr

/-- The broker's request-side bookkeeping: `waiters` (ids with a
registered one-shot response channel), `unconfirmedRequests`
(id ↦ payload, not yet Accepted), and the frames handed to the single
writer task, in order.  Payloads are byte lists; ids are modelled as
`Nat` (the 16-byte ids are opaque correlators). -/
structure BrokerReqState where
  waiters : List Nat
  unconfirmed : List (Nat × List Nat)
  sent : List (Nat × List Nat)

/-- Result of the admission phase of `Broker.Request`. -/
structure RequestOutcome where
  err : Option RequestError
  st : BrokerReqState

/-- The admission phase of `Broker.Request` (`part_000` lines 114-134):
both size checks run before `NewWaiter`, before the `unconfirmedRequests`
insertion and before any frame is built or enqueued, so a rejected
payload registers nothing and sends nothing.  An admitted payload
registers the waiter, stores the unconfirmed entry, and enqueues the
Request frame.  (`newMessage` enforces the same bound, so the enqueue
cannot fail for an admitted size.) -/
def RequestAdmit (st : BrokerReqState) (id : Nat) (payload : List Nat) : RequestOutcome :=
  if payload.length > UINT32_MAX then
    { err := some .tooLargeUint32, st := st }
  else if payload.length > MAX_MESSAGE_PAYLOAD then
    { err := some .exceedsMaxMessagePayload, st := st }
  else
    { err := none,
      st := { waiters := id :: st.waiters,
              unconfirmed := (id, payload) :: st.unconfirmed,
              sent := st.sent ++ [(id, payload)] } }

/-- The `ctx.Done()` branch of `Broker.Request` (`part_000` lines
139-142): caller cancellation deletes `unconfirmedRequests[id]` and
`waiters[id]` before the call returns the cancellation error. -/
def cancelRequest (st : BrokerReqState) (id : Nat) : BrokerReqState :=
  { st with unconfirmed := st.unconfirmed.filter (fun p => p.1 ≠ id),
            waiters := st.waiters.filter (fun w => w ≠ id) }

/-- Result kinds of a `Broker.Request` call. -/
inductive RequestResult where
  | response (bytes : List Nat)
  | cancelled
  | disconnected
deriving DecidableEq, Repr

/-- The full `ctx.Done()` path of `Broker.Request`: clean up both maps
and return the caller's cancellation error. -/
def requestOnCtxDone (st : BrokerReqState) (id : Nat) : RequestResult × BrokerReqState :=
  (.cancelled, cancelRequest st id)

/-- The `payloadTypeResponse` branch of `Broker.processStash`
(`part_000` lines 220-224): `waiters.LoadAndDelete(id)`; when a waiter
is registered the payload is delivered to it and the entry removed,
otherwise the frame is dropped.  `delivered` records (id, payload)
handed to callers. -/
def processResponse (st : BrokerReqState) (delivered : List (Nat × List Nat))
    (id : Nat) (payload : List Nat) : BrokerReqState × List (Nat × List Nat) :=
  if id ∈ st.waiters then
    ({ st with waiters := st.waiters.filter (fun w => w ≠ id) }, delivered ++ [(id, payload)])
  else
    (st, delivered)

/-- Events of the inbound-request handling of `Broker.processStash`
(`part_000` lines 225-243): a Request frame with a given id is decoded,
or the spawned handler task for an id finishes (executing the deferred
`processingRequests.Delete(id)`). -/
inductive BrokerEvent where
  | requestFrame (id : Nat)
  | handlerDone (id : Nat)
deriving DecidableEq, Repr

/-- Dedup state: the ids currently in `processingRequests`, and how many
times the user handler has been invoked per id. -/
structure BrokerProcState where
  processing : List Nat
  invocations : Nat → Nat

/-- One step of the inbound-request handling: a Request frame whose id
is already in `processingRequests` is ignored; otherwise the id is
stored, an Accept is enqueued and the handler is invoked on a spawned
task.  When that task finishes, the deferred delete removes the id. -/
def processStashStep (s : BrokerProcState) : BrokerEvent → BrokerProcState
  | .requestFrame id =>
    if id ∈ s.processing then s
    else
      { processing := id :: s.processing,
        invocations := fun j => if j = id then s.invocations j + 1 else s.invocations j }
  | .handlerDone id =>
    { s with processing := s.processing.erase id }

/-- Run a sequence of inbound-request events. -/
def runBroker (s : BrokerProcState) (events : List BrokerEvent) : BrokerProcState :=
  events.foldl processStashStep s

/-!  Watermark histories: sequences of per-key operations. -/

/-- One operation on an unlocked key's watermark state: a sign attempt
(`SignAndUpdate`) or an administrative `SetLevel`. -/
inductive KeyOp where
  | sign (knd : SIGN_KIND) (level round : Nat) (env : SignEnv)
  | setLvl (hasOnDisk : Bool) (level : Nat) (persistOk : Bool)

/-- Apply one operation: the key's state afterwards, and the
`(kind, level, round)` emitted when the operation was a successful
sign. -/
def applyOp (key : GKey) : KeyOp → GKey × Option (SIGN_KIND × HighWatermark)
  | .sign knd level round env =>
    let out := SignAndUpdate key knd level round env
    (out.key, if out.err = none then some (knd, ⟨level, round⟩) else none)
  | .setLvl hasOnDisk level persistOk =>
    ((SetLevel (some key) hasOnDisk level persistOk).key.getD key, none)

/-- Run a history of operations, collecting the successfully signed
`(kind, (level, round))` pairs in order. -/
def runOps (key : GKey) : List KeyOp → List (SIGN_KIND × HighWatermark)
  | [] => []
  | op :: rest =>
    let (key', emitted) := applyOp key op
    match emitted with
    | some p => p :: runOps key' rest
    | none => runOps key' rest

/-- The successfully signed `(level, round)` pairs of one kind, in
order. -/
def signedPairs (key : GKey) (ops : List KeyOp) (k : SIGN_KIND) : List HighWatermark :=
  (runOps key ops).filterMap (fun p => if p.1 = k then some p.2 else none)

/-!  Concrete instances used to evaluate the theorems. -/

/-- An unlocked key with all watermarks at `(0, 0)` (the state right
after `CreateKey` + `Unlock` on a fresh key). -/
def keyU : GKey :=
  { dekPresent := true, encSecretPresent := true, dataNoncePresent := true,
    watermark := fun _ => ⟨0, 0⟩, stateCorrupted := false }

/-- All cryptographic and persistence effects succeed. -/
def envAllOk : SignEnv := ⟨true, true, true, true⟩

/-- The AES-GCM open of the stored encrypted scalar fails (tampered
ciphertext or wrong AAD); everything else would succeed. -/
def envBadDecrypt : SignEnv := ⟨false, true, true, true⟩

/-- A key directory holding `meta.json` but no `encrypted.bin`. -/
def entryMetaOnly : KeyDirEntry := ⟨"key1", true, true, false⟩

/-- Broker dedup state with nothing in flight. -/
def brokerInit : BrokerProcState := { processing := [], invocations := fun _ => 0 }

/-- Broker dedup state currently processing id 5. -/
def brokerTracked : BrokerProcState := { processing := [5], invocations := fun _ => 0 }

/-- An empty request-side broker state. -/
def brokerReq0 : BrokerReqState := { waiters := [], unconfirmed := [], sent := [] }

/-!  Helper lemmas. -/

theorem wmLt_trans {a b c : HighWatermark} (h1 : wmLt a b) (h2 : wmLt b c) : wmLt a c := by
  unfold wmLt at *; omega

theorem wmLe_wmLt_trans {a b c : HighWatermark} (h1 : wmLe a b) (h2 : wmLt b c) : wmLt a c := by
  rcases h1 with rfl | h1
  · exact h2
  · exact wmLt_trans h1 h2

theorem SignAndUpdate_watermark_cases (key : GKey) (knd : SIGN_KIND) (level round : Nat)
    (env : SignEnv) (k : SIGN_KIND) :
    (SignAndUpdate key knd level round env).key.watermark k = key.watermark k ∨
      (k = knd ∧ wmLt (key.watermark knd) ⟨level, round⟩ ∧
        (SignAndUpdate key knd level round env).key.watermark k = ⟨level, round⟩) := by
  unfold SignAndUpdate
  split
  · left; rfl
  next h1 =>
    split
    · left; rfl
    next h2 =>
      have hlt : wmLt (key.watermark knd) ⟨level, round⟩ := not_not.mp h2
      split
      · left; rfl
      split
      · left; rfl
      split
      · left; rfl
      by_cases hk : k = knd
      · subst hk
        split
        · right; exact ⟨rfl, hlt, by simp⟩
        · right; exact ⟨rfl, hlt, by simp⟩
      · split
        · left; simp [hk]
        · left; simp [hk]

theorem SignAndUpdate_mono (key : GKey) (knd : SIGN_KIND) (level round : Nat)
    (env : SignEnv) (k : SIGN_KIND) :
    wmLe (key.watermark k) ((SignAndUpdate key knd level round env).key.watermark k) := by
  rcases SignAndUpdate_watermark_cases key knd level round env k with h | ⟨rfl, hlt, h⟩
  · rw [h]; exact Or.inl rfl
  · rw [h]; exact Or.inr hlt

theorem SignAndUpdate_err_none_conditions (key : GKey) (knd : SIGN_KIND) (level round : Nat)
    (env : SignEnv) (h : (SignAndUpdate key knd level round env).err = none) :
    (key.dekPresent = true ∧ key.encSecretPresent = true ∧ key.dataNoncePresent = true) ∧
    wmLt (key.watermark knd) ⟨level, round⟩ ∧
    env.decryptOk = true ∧ env.secretLen32 = true ∧ env.scalarOk = true ∧ env.persistOk = true := by
  unfold SignAndUpdate at h
  split at h
  · exact absurd h (by simp)
  next h1 =>
    split at h
    · exact absurd h (by simp)
    next h2 =>
      split at h
      · exact absurd h (by simp)
      next h3 =>
        split at h
        · exact absurd h (by simp)
        next h4 =>
          split at h
          · exact absurd h (by simp)
          next h5 =>
            split at h
            · exact absurd h (by simp)
            next h6 =>
              simp only [not_or, Bool.not_eq_false] at h1 h3 h4 h5 h6
              exact ⟨h1, not_not.mp h2, h3, h4, h5, h6⟩

theorem SignAndUpdate_eq_success (key : GKey) (knd : SIGN_KIND) (level round : Nat) (env : SignEnv)
    (h1 : key.dekPresent = true) (h1b : key.encSecretPresent = true)
    (h1c : key.dataNoncePresent = true)
    (h2 : wmLt (key.watermark knd) ⟨level, round⟩)
    (h3 : env.decryptOk = true) (h4 : env.secretLen32 = true) (h5 : env.scalarOk = true)
    (h6 : env.persistOk = true) :
    SignAndUpdate key knd level round env =
      { err := none,
        key := { key with
                 watermark := fun k => if k = knd then ⟨level, round⟩ else key.watermark k,
                 stateCorrupted := false },
        unlockCalls := 1,
        persistedState := some (GetKeyState { key with
                 watermark := fun k => if k = knd then ⟨level, round⟩ else key.watermark k }) } := by
  simp [SignAndUpdate, h1, h1b, h1c, h2, h3, h4, h5, h6]

theorem SignAndUpdate_eq_stale (key : GKey) (knd : SIGN_KIND) (level round : Nat) (env : SignEnv)
    (hu : ¬(key.dekPresent = false ∨ key.encSecretPresent = false ∨ key.dataNoncePresent = false))
    (h2 : ¬ wmLt (key.watermark knd) ⟨level, round⟩) :
    SignAndUpdate key knd level round env =
      { err := some .staleWatermark, key := key, unlockCalls := 1, persistedState := none } := by
  simp [SignAndUpdate, hu, h2]

theorem mem_signKindsList (k : SIGN_KIND) : k ∈ signKindsList := by
  cases k <;> simp [signKindsList]


theorem SetLevel_watermark_cases (key : GKey) (hod : Bool) (level : Nat) (p : Bool)
    (k : SIGN_KIND) :
    ((SetLevel (some key) hod level p).key.getD key).watermark k = key.watermark k ∨
      ((key.watermark k).level < level ∧
        ((SetLevel (some key) hod level p).key.getD key).watermark k = ⟨level, 0⟩) := by
  simp only [SetLevel]
  split
  · left; rfl
  next hdek =>
    split
    · left; rfl
    next hany =>
      have hk : (key.watermark k).level < level := by
        simp only [List.any_eq_true, decide_eq_true_eq, not_exists, not_and] at hany
        have := hany k (mem_signKindsList k)
        omega
      split
      · right; exact ⟨hk, rfl⟩
      · right; exact ⟨hk, rfl⟩

theorem SetLevel_mono (key : GKey) (hod : Bool) (level : Nat) (p : Bool) (k : SIGN_KIND) :
    wmLe (key.watermark k) (((SetLevel (some key) hod level p).key.getD key).watermark k) := by
  rcases SetLevel_watermark_cases key hod level p k with h | ⟨hlt, h⟩
  · rw [h]; exact Or.inl rfl
  · rw [h]; exact Or.inr (Or.inl hlt)

theorem SetLevel_err_none_conditions (key : GKey) (hod : Bool) (level : Nat) (p : Bool)
    (h : (SetLevel (some key) hod level p).err = none) :
    key.dekPresent = true ∧
    (signKindsList.any fun k => decide (level ≤ (key.watermark k).level)) = false ∧
    p = true := by
  simp only [SetLevel] at h
  split at h
  · exact absurd h (by simp)
  next hdek =>
    split at h
    · exact absurd h (by simp)
    next hany =>
      split at h
      · exact absurd h (by simp)
      next hp =>
        simp only [Bool.not_eq_false] at hdek hp
        simp only [Bool.not_eq_true] at hany
        exact ⟨hdek, hany, hp⟩

theorem SetLevel_eq_success (key : GKey) (hod : Bool) (level : Nat) (p : Bool)
    (h1 : key.dekPresent = true)
    (h2 : (signKindsList.any fun k => decide (level ≤ (key.watermark k).level)) = false)
    (h3 : p = true) :
    SetLevel (some key) hod level p =
      { err := none,
        key := some { key with watermark := fun _ => ⟨level, 0⟩, stateCorrupted := false },
        persistedState := some (GetKeyState { key with watermark := fun _ => ⟨level, 0⟩ }) } := by
  simp [SetLevel, h1, h2, h3]

theorem applyOp_mono (key : GKey) (op : KeyOp) (k : SIGN_KIND) :
    wmLe (key.watermark k) ((applyOp key op).1.watermark k) := by
  cases op with
  | sign knd level round env => exact SignAndUpdate_mono key knd level round env k
  | setLvl hod level p => exact SetLevel_mono key hod level p k

theorem applyOp_emit (key : GKey) (op : KeyOp) (knd : SIGN_KIND) (hw : HighWatermark)
    (h : (applyOp key op).2 = some (knd, hw)) :
    wmLt (key.watermark knd) hw ∧ (applyOp key op).1.watermark knd = hw := by
  cases op with
  | setLvl hod level p => simp [applyOp] at h
  | sign knd' level round env =>
    dsimp only [applyOp] at h ⊢
    by_cases he : (SignAndUpdate key knd' level round env).err = none
    · rw [if_pos he] at h
      obtain ⟨hk, hhw⟩ : knd' = knd ∧ (⟨level, round⟩ : HighWatermark) = hw := by
        have := Option.some.inj h
        exact ⟨congrArg Prod.fst this, congrArg Prod.snd this⟩
      subst hk; subst hhw
      obtain ⟨hok, hlt, _⟩ := SignAndUpdate_err_none_conditions key knd' level round env he
      refine ⟨hlt, ?_⟩
      rw [SignAndUpdate_eq_success key knd' level round env hok.1 hok.2.1 hok.2.2 hlt
        (SignAndUpdate_err_none_conditions key knd' level round env he).2.2.1
        (SignAndUpdate_err_none_conditions key knd' level round env he).2.2.2.1
        (SignAndUpdate_err_none_conditions key knd' level round env he).2.2.2.2.1
        (SignAndUpdate_err_none_conditions key knd' level round env he).2.2.2.2.2]
      simp
    · rw [if_neg he] at h
      exact absurd h (by simp)

theorem runOps_cons (key : GKey) (op : KeyOp) (rest : List KeyOp) :
    runOps key (op :: rest) =
      (match (applyOp key op).2 with
       | some p => p :: runOps (applyOp key op).1 rest
       | none => runOps (applyOp key op).1 rest) := rfl

theorem signedPairs_lowerBound (ops : List KeyOp) (key : GKey) (k : SIGN_KIND) :
    ∀ x ∈ signedPairs key ops k, wmLt (key.watermark k) x := by
  induction ops generalizing key with
  | nil => intro x hx; simp [signedPairs, runOps] at hx
  | cons op rest ih =>
    intro x hx
    unfold signedPairs at hx
    rw [runOps_cons] at hx
    rcases hemit : (applyOp key op).2 with _ | ⟨knd', hw⟩
    · rw [hemit] at hx
      have := ih (applyOp key op).1 x (by simpa [signedPairs] using hx)
      exact wmLe_wmLt_trans (applyOp_mono key op k) this
    · rw [hemit] at hx
      obtain ⟨hlt, hset⟩ := applyOp_emit key op knd' hw hemit
      by_cases hk : knd' = k
      · subst hk
        simp only [List.filterMap_cons, if_pos rfl] at hx
        rcases List.mem_cons.mp hx with rfl | hx
        · exact hlt
        · have := ih (applyOp key op).1 x (by simpa [signedPairs] using hx)
          rw [hset] at this
          exact wmLt_trans hlt this
      · simp only [List.filterMap_cons, if_neg hk] at hx
        have := ih (applyOp key op).1 x (by simpa [signedPairs] using hx)
        exact wmLe_wmLt_trans (applyOp_mono key op k) this

theorem signedPairs_pairwise (ops : List KeyOp) (key : GKey) (k : SIGN_KIND) :
    (signedPairs key ops k).Pairwise wmLt := by
  induction ops generalizing key with
  | nil => simp [signedPairs, runOps]
  | cons op rest ih =>
    unfold signedPairs
    rw [runOps_cons]
    rcases hemit : (applyOp key op).2 with _ | ⟨knd', hw⟩
    · exact ih (applyOp key op).1
    · obtain ⟨hlt, hset⟩ := applyOp_emit key op knd' hw hemit
      by_cases hk : knd' = k
      · subst hk
        simp only [List.filterMap_cons, if_pos rfl]
        refine List.pairwise_cons.mpr ⟨?_, ih (applyOp key op).1⟩
        intro x hx
        have := signedPairs_lowerBound rest (applyOp key op).1 knd' x
          (by simpa [signedPairs] using hx)
        rw [hset] at this
        exact this
      · simp only [List.filterMap_cons, if_neg hk]
        exact ih (applyOp key op).1

/-!  Claim theorems. -/

/-- Claim C1: for every unlocked key and every signing kind,
`SignAndUpdate` succeeds only when the payload's `(level, round)` is
lexicographically strictly greater than the stored watermark for that
kind; otherwise it fails with `StaleWatermark` and the watermark is
unchanged; consequently, over any history of operations, the sequence of
successfully signed `(level, round)` pairs per key per kind is strictly
lexicographically increasing. -/
theorem C1_sign_watermark_monotonic (key : GKey) (knd : SIGN_KIND) (level round : Nat)
    (env : SignEnv)
    (hu : key.dekPresent = true ∧ key.encSecretPresent = true ∧ key.dataNoncePresent = true) :
    ((SignAndUpdate key knd level round env).err = none →
      wmLt (key.watermark knd) ⟨level, round⟩) ∧
    (¬ wmLt (key.watermark knd) ⟨level, round⟩ →
      (SignAndUpdate key knd level round env).err = some .staleWatermark ∧
      (SignAndUpdate key knd level round env).key = key) ∧
    (∀ (k0 : GKey) (ops : List KeyOp) (k : SIGN_KIND),
      (signedPairs k0 ops k).Pairwise wmLt) := by
  refine ⟨?_, ?_, fun k0 ops k => signedPairs_pairwise ops k0 k⟩
  · intro he
    exact (SignAndUpdate_err_none_conditions key knd level round env he).2.1
  · intro hstale
    have hu' : ¬(key.dekPresent = false ∨ key.encSecretPresent = false ∨
        key.dataNoncePresent = false) := by
      simp [hu.1, hu.2.1, hu.2.2]
    rw [SignAndUpdate_eq_stale key knd level round env hu' hstale]
    exact ⟨rfl, rfl⟩

/-- Witness for C1 at a freshly unlocked key, payload `(1, 0)` of kind
BLOCK, all effects succeeding. -/
theorem C1_sign_watermark_monotonic_witness :
    (keyU.dekPresent = true ∧ keyU.encSecretPresent = true ∧ keyU.dataNoncePresent = true) ∧
    (((SignAndUpdate keyU .BLOCK 1 0 envAllOk).err = none →
        wmLt (keyU.watermark .BLOCK) ⟨1, 0⟩) ∧
      (¬ wmLt (keyU.watermark .BLOCK) ⟨1, 0⟩ →
        (SignAndUpdate keyU .BLOCK 1 0 envAllOk).err = some .staleWatermark ∧
        (SignAndUpdate keyU .BLOCK 1 0 envAllOk).key = keyU) ∧
      (∀ (k0 : GKey) (ops : List KeyOp) (k : SIGN_KIND),
        (signedPairs k0 ops k).Pairwise wmLt)) :=
  ⟨⟨rfl, rfl, rfl⟩, C1_sign_watermark_monotonic keyU .BLOCK 1 0 envAllOk ⟨rfl, rfl, rfl⟩⟩

/-- Claim C10 (code bug): on the path where AES-GCM decryption of the
stored encrypted scalar fails, `SignAndUpdate` executes the explicit
`key.mu.Unlock()` of `keyring.go` line 468 and then the deferred unlock
of line 447 as well — two unlocks of a once-locked mutex, which panics
at runtime.  On the other paths the mutex is released exactly once. -/
theorem C10_decrypt_failure_double_unlock :
    (SignAndUpdate keyU .BLOCK 1 0 envBadDecrypt).unlockCalls = 2 ∧
    (SignAndUpdate keyU .BLOCK 1 0 envBadDecrypt).err = some .corruptedSecret ∧
    (SignAndUpdate keyU .BLOCK 1 0 envAllOk).unlockCalls = 1 := by
  refine ⟨?_, ?_, ?_⟩ <;> rfl

/-- Claim C5 counterexample: after a successful `SetLevel(alias, 5)` on a
fresh unlocked key, a second `SetLevel(alias, 5)` with identical
arguments does not succeed: it fails with the level-not-greater error,
because the requested level must strictly exceed every current per-kind
level and they are all already 5. -/
theorem C5_counterexample :
    (SetLevel (some keyU) true 5 true).err = none ∧
    (SetLevel ((SetLevel (some keyU) true 5 true).key) true 5 true).err =
      some .levelNotGreater := by
  exact ⟨rfl, rfl⟩

/-- Claim C5 as amended: after a successful `SetLevel(alias, L)`, a
second `SetLevel(alias, L)` with identical arguments fails with the
level-not-greater error, writes nothing, and leaves the stored key state
unchanged. -/
theorem C5_setLevel_not_idempotent (key : GKey) (hod hod2 : Bool) (level : Nat) (p1 p2 : Bool)
    (h : (SetLevel (some key) hod level p1).err = none) :
    (SetLevel ((SetLevel (some key) hod level p1).key) hod2 level p2).err =
      some .levelNotGreater ∧
    (SetLevel ((SetLevel (some key) hod level p1).key) hod2 level p2).key =
      (SetLevel (some key) hod level p1).key ∧
    (SetLevel ((SetLevel (some key) hod level p1).key) hod2 level p2).persistedState = none := by
  obtain ⟨h1, h2, h3⟩ := SetLevel_err_none_conditions key hod level p1 h
  rw [SetLevel_eq_success key hod level p1 h1 h2 h3]
  simp [SetLevel, h1, signKindsList]

/-- Witness for the amended C5 at a fresh unlocked key and level 5. -/
theorem C5_setLevel_not_idempotent_witness :
    ((SetLevel (some keyU) true 5 true).err = none) ∧
    ((SetLevel ((SetLevel (some keyU) true 5 true).key) true 5 true).err =
        some .levelNotGreater ∧
      (SetLevel ((SetLevel (some keyU) true 5 true).key) true 5 true).key =
        (SetLevel (some keyU) true 5 true).key ∧
      (SetLevel ((SetLevel (some keyU) true 5 true).key) true 5 true).persistedState = none) :=
  ⟨rfl, C5_setLevel_not_idempotent keyU true true 5 true true rfl⟩

/-- Claim C6: `SetLevel` fails when the key is locked (no unlocked
registry entry, or an entry without a DEK); it fails with the
level-not-greater error, writing nothing, when the requested level is
not strictly greater than every existing per-kind watermark level; and
on success all three per-kind watermarks become `(level, 0)` and the new
state is persisted before the call returns. -/
theorem C6_setLevel_spec (key : GKey) (hod : Bool) (level : Nat) (persistOk : Bool) :
    ((SetLevel none hod level persistOk).err =
      some (if hod then .keyLockedNoEntry else .unknownKey)) ∧
    (key.dekPresent = false →
      (SetLevel (some key) hod level persistOk).err = some .keyLocked ∧
      (SetLevel (some key) hod level persistOk).persistedState = none) ∧
    ((∃ k ∈ signKindsList, level ≤ (key.watermark k).level) →
      (SetLevel (some key) hod level persistOk).err = some .levelNotGreater ∨
      (SetLevel (some key) hod level persistOk).err = some .keyLocked) ∧
    (key.dekPresent = true → (∃ k ∈ signKindsList, level ≤ (key.watermark k).level) →
      (SetLevel (some key) hod level persistOk).err = some .levelNotGreater ∧
      (SetLevel (some key) hod level persistOk).key = some key ∧
      (SetLevel (some key) hod level persistOk).persistedState = none) ∧
    ((SetLevel (some key) hod level persistOk).err = none →
      (∀ k, ((SetLevel (some key) hod level persistOk).key.getD key).watermark k = ⟨level, 0⟩) ∧
      (SetLevel (some key) hod level persistOk).persistedState =
        some (fun _ => some ⟨level, 0⟩)) := by
  refine ⟨?_, ?_, ?_, ?_, ?_⟩
  · by_cases hhod : hod <;> simp [SetLevel, hhod]
  · intro hdek
    constructor <;> simp [SetLevel, hdek]
  · intro hex
    by_cases hdek : key.dekPresent = false
    · right; simp [SetLevel, hdek]
    · left
      have hany : (signKindsList.any fun k => decide (level ≤ (key.watermark k).level)) = true := by
        simp only [List.any_eq_true, decide_eq_true_eq]
        exact hex
      simp [SetLevel, hdek, hany]
  · intro hdek hex
    have hany : (signKindsList.any fun k => decide (level ≤ (key.watermark k).level)) = true := by
      simp only [List.any_eq_true, decide_eq_true_eq]
      exact hex
    refine ⟨?_, ?_, ?_⟩ <;> simp [SetLevel, hdek, hany]
  · intro he
    obtain ⟨h1, h2, h3⟩ := SetLevel_err_none_conditions key hod level persistOk he
    rw [SetLevel_eq_success key hod level persistOk h1 h2 h3]
    exact ⟨fun k => rfl, rfl⟩

/-- Witness for C6: `SetLevel 5` on a fresh unlocked key succeeds, sets
all three watermarks to `(5, 0)`, and persists them. -/
theorem C6_setLevel_spec_witness :
    ((SetLevel (some keyU) true 5 true).err = none) ∧
    ((SetLevel (some keyU) true 5 true).err = none →
      (∀ k, ((SetLevel (some keyU) true 5 true).key.getD keyU).watermark k = ⟨5, 0⟩) ∧
      (SetLevel (some keyU) true 5 true).persistedState = some (fun _ => some ⟨5, 0⟩)) :=
  ⟨rfl, (C6_setLevel_spec keyU true 5 true).2.2.2.2⟩

/-- Claim C2: `readKeyState` reads both `level.bin` and `level.bin.tmp`;
when both decrypt, per-kind entries are merged picking the entry with
the larger level (so the resulting level is `max(main, backup)` per
kind and no successfully persisted watermark is forgotten); when exactly
one file is readable, that one wins (a missing file reads as the empty
state, so a present file always dominates a missing one). -/
theorem C2_readKeyState_merge (ks1 ks2 : KeyStateMap) (k : SIGN_KIND) :
    ((readKeyState 32 (.valid ks1) (.valid ks2)).state = some (mergeKeyStates ks1 ks2) ∧
      getLevel (mergeKeyStates ks1 ks2 k) = max (getLevel (ks1 k)) (getLevel (ks2 k)) ∧
      (readKeyState 32 (.valid ks1) (.valid ks2)).err = none) ∧
    ((readKeyState 32 (.valid ks1) .corrupt).state = some ks1 ∧
      (readKeyState 32 (.valid ks1) .ioFail).state = some ks1 ∧
      (readKeyState 32 .corrupt (.valid ks2)).state = some ks2 ∧
      (readKeyState 32 .ioFail (.valid ks2)).state = some ks2) ∧
    ((readKeyState 32 .absent (.valid ks2)).state.map (fun s => s k) = some (ks2 k) ∧
      (readKeyState 32 (.valid ks1) .absent).state.map (fun s => s k) = some (ks1 k)) := by
  refine ⟨⟨rfl, ?_, rfl⟩, ⟨rfl, rfl, rfl, rfl⟩, ?_, ?_⟩
  · rcases h1 : ks1 k with _ | m <;> rcases h2 : ks2 k with _ | b <;>
      simp only [mergeKeyStates, h1, h2]
    · simp [getLevel]
    · simp [getLevel]
    · simp [getLevel]
    · split <;> simp only [getLevel] <;> omega
  · show some (mergeKeyStates (fun _ => none) ks2 k) = some (ks2 k)
    rcases h2 : ks2 k with _ | b <;> simp [mergeKeyStates, h2]
  · show some (mergeKeyStates ks1 (fun _ => none) k) = some (ks1 k)
    rcases h1 : ks1 k with _ | m <;> simp [mergeKeyStates, h1]

/-- Claim C3 counterexample: `FileStore.unlock` on an existing key with
the wrong master password fails with the bad-password/corrupted-unwrap
error, while unlocking a non-existent key fails with the file-read
(not-found) error surfaced by `readJSON` on `meta.json`; the two error
kinds are distinct, so the claimed indistinguishability fails on the
cited code. -/
theorem C3_counterexample :
    storeUnlock ⟨true, true, true, false⟩ = .error .badPasswordOrCorrupt ∧
    storeUnlock ⟨false, false, false, false⟩ = .error .metaReadFailed ∧
    (UnlockError.badPasswordOrCorrupt = UnlockError.metaReadFailed → False) :=
  ⟨rfl, rfl, by intro h; exact absurd h (by decide)⟩

/-- Claim C3 as amended: a wrong master password on an existing key
fails with the bad-password error kind (shared with genuine corruption
of the wrapped DEK, undistinguished at this layer), which is distinct
from the error kind produced for a non-existent key (a file-not-found
read error on `meta.json`). -/
theorem C3_wrong_password_error_kind (e e' : UnlockEnv)
    (hwrong : e.metaPresent = true ∧ e.binPresent = true ∧ e.bundleOk = true ∧
      e.unwrapOk = false)
    (hmissing : e'.metaPresent = false) :
    storeUnlock e = .error .badPasswordOrCorrupt ∧
    storeUnlock e' = .error .metaReadFailed ∧
    (UnlockError.badPasswordOrCorrupt = UnlockError.metaReadFailed → False) := by
  obtain ⟨h1, h2, h3, h4⟩ := hwrong
  refine ⟨by simp [storeUnlock, h1, h2, h3, h4], by simp [storeUnlock, hmissing], ?_⟩
  intro h; exact absurd h (by decide)

/-- Witness for the amended C3. -/
theorem C3_wrong_password_error_kind_witness :
    ((true : Bool) = true ∧ (true : Bool) = true ∧ (true : Bool) = true ∧
      (false : Bool) = false) ∧
    ((false : Bool) = false) ∧
    (storeUnlock ⟨true, true, true, false⟩ = .error .badPasswordOrCorrupt ∧
      storeUnlock ⟨false, true, true, true⟩ = .error .metaReadFailed ∧
      (UnlockError.badPasswordOrCorrupt = UnlockError.metaReadFailed → False)) :=
  ⟨⟨rfl, rfl, rfl, rfl⟩, rfl,
    C3_wrong_password_error_kind ⟨true, true, true, false⟩ ⟨false, true, true, true⟩
      ⟨rfl, rfl, rfl, rfl⟩ rfl⟩

/-- Claim C4 counterexample: a key directory holding `meta.json` but no
`encrypted.bin` is treated as existing — `hasKey` stats only
`meta.json`, so the claimed "exactly when both files are present"
fails: this entry has `hasKey = true`, is listed by `list`, and
collides in `CreateKey`, with `encrypted.bin` absent. -/
theorem C4_counterexample :
    hasKey entryMetaOnly = true ∧
    entryMetaOnly.hasBin = false ∧
    createKeyCollides entryMetaOnly = true ∧
    storeList [entryMetaOnly] = ["key1"] ∧
    ¬ (∀ e : KeyDirEntry, hasKey e = true → e.hasBin = true) := by
  refine ⟨rfl, rfl, rfl, rfl, ?_⟩
  intro h
  exact absurd (h entryMetaOnly rfl) (by decide)

/-- Claim C4 as amended: the store treats a key as existing exactly when
`meta.json` is present in its directory; `encrypted.bin` is not
consulted by `hasKey`, by `list`, or by the `CreateKey` collision
check. -/
theorem C4_hasKey_meta_only (e : KeyDirEntry) (entries : List KeyDirEntry) (n : String) :
    (hasKey e = e.hasMeta) ∧
    (createKeyCollides e = e.hasMeta) ∧
    (n ∈ storeList entries ↔ ∃ x ∈ entries, x.isDir = true ∧ x.hasMeta = true ∧ x.name = n) := by
  refine ⟨rfl, rfl, ?_⟩
  simp only [storeList, hasKey, List.mem_map, List.mem_filter, Bool.and_eq_true]
  constructor
  · rintro ⟨x, ⟨hx, hdir, hmeta⟩, hname⟩
    exact ⟨x, hx, hdir, hmeta, hname⟩
  · rintro ⟨x, hx, hdir, hmeta, hname⟩
    exact ⟨x, ⟨hx, hdir, hmeta⟩, hname⟩

theorem runBroker_cons (s : BrokerProcState) (e : BrokerEvent) (tr : List BrokerEvent) :
    runBroker s (e :: tr) = runBroker (processStashStep s e) tr := rfl

/-- Claim C7 counterexample: the processing map entry is removed when the
handler task finishes (`defer processingRequests.Delete(id)`), so a
Request frame with the same id received after completion invokes the
handler a second time — the unqualified "at most once per id regardless
of how many times received" fails on the trace
request(0), completion(0), request(0). -/
theorem C7_counterexample :
    (runBroker brokerInit [.requestFrame 0, .handlerDone 0, .requestFrame 0]).invocations 0 = 2 ∧
    ¬ ((runBroker brokerInit
        [.requestFrame 0, .handlerDone 0, .requestFrame 0]).invocations 0 ≤ 1) := by
  exact ⟨rfl, by decide⟩

/-- Claim C7 as amended: while an id is tracked in the processing map,
further Request frames carrying that id never invoke the handler — over
any event sequence that does not complete that id's processing, the
invocation count for the id is unchanged and the id stays tracked.  The
handler can only run again for an id after its processing completes and
the id is removed from the map. -/
theorem C7_dedup_while_tracked (s : BrokerProcState) (id : Nat) (tr : List BrokerEvent)
    (hmem : id ∈ s.processing) (htr : ∀ e ∈ tr, e ≠ .handlerDone id) :
    (runBroker s tr).invocations id = s.invocations id ∧
    id ∈ (runBroker s tr).processing := by
  induction tr generalizing s with
  | nil => exact ⟨rfl, hmem⟩
  | cons e rest ih =>
    have hrest : ∀ x ∈ rest, x ≠ BrokerEvent.handlerDone id :=
      fun x hx => htr x (List.mem_cons_of_mem _ hx)
    rw [runBroker_cons]
    cases e with
    | requestFrame j =>
      by_cases hj : j ∈ s.processing
      · have hstep : processStashStep s (.requestFrame j) = s := by
          simp [processStashStep, hj]
        rw [hstep]
        exact ih s hmem hrest
      · have hji : j ≠ id := fun heq => hj (heq ▸ hmem)
        have hstep : processStashStep s (.requestFrame j) =
            { processing := j :: s.processing,
              invocations := fun m => if m = j then s.invocations m + 1 else s.invocations m } := by
          simp [processStashStep, hj]
        rw [hstep]
        obtain ⟨hinv, hmem'⟩ := ih
          { processing := j :: s.processing,
            invocations := fun m => if m = j then s.invocations m + 1 else s.invocations m }
          (List.mem_cons_of_mem _ hmem) hrest
        refine ⟨?_, hmem'⟩
        have hij : id ≠ j := fun h => hji h.symm
        rw [hinv]
        simp [hij]
    | handlerDone j =>
      have hji : j ≠ id := by
        intro heq
        cases heq
        exact htr (.handlerDone id) (List.mem_cons_self _ _) rfl
      have hstep : processStashStep s (.handlerDone j) =
          { s with processing := s.processing.erase j } := rfl
      rw [hstep]
      exact ih { s with processing := s.processing.erase j }
        ((List.mem_erase_of_ne (fun h => hji h.symm)).mpr hmem) hrest

/-- Witness for the amended C7: id 5 is being processed; two duplicate
Request frames arrive before it completes; the handler is not invoked
again and the id stays tracked. -/
theorem C7_dedup_while_tracked_witness :
    (5 ∈ brokerTracked.processing) ∧
    (∀ e ∈ ([.requestFrame 5, .requestFrame 5] : List BrokerEvent),
      e ≠ .handlerDone 5) ∧
    ((runBroker brokerTracked [.requestFrame 5, .requestFrame 5]).invocations 5 =
        brokerTracked.invocations 5 ∧
      5 ∈ (runBroker brokerTracked [.requestFrame 5, .requestFrame 5]).processing) :=
  ⟨by decide, by decide,
    C7_dedup_while_tracked brokerTracked 5 [.requestFrame 5, .requestFrame 5]
      (by decide) (by decide)⟩

/-- Claim C8: `Broker.Request` accepts a payload of exactly
`MAX_MESSAGE_PAYLOAD` bytes (registering the waiter and the unconfirmed
entry and enqueuing the frame), and rejects a payload one byte larger
with the payload-too-large error; the rejection happens before any
waiter or unconfirmed entry is registered and before anything is sent,
so the state is unchanged. -/
theorem C8_request_payload_boundary (st : BrokerReqState) (id : Nat)
    (pMax pOver : List Nat)
    (hMax : pMax.length = MAX_MESSAGE_PAYLOAD)
    (hOver : pOver.length = MAX_MESSAGE_PAYLOAD + 1) :
    ((RequestAdmit st id pMax).err = none ∧
      (RequestAdmit st id pMax).st.waiters = id :: st.waiters ∧
      (RequestAdmit st id pMax).st.unconfirmed = (id, pMax) :: st.unconfirmed ∧
      (RequestAdmit st id pMax).st.sent = st.sent ++ [(id, pMax)]) ∧
    ((RequestAdmit st id pOver).err = some .exceedsMaxMessagePayload ∧
      (RequestAdmit st id pOver).st = st) := by
  constructor
  · have h1 : ¬ pMax.length > UINT32_MAX := by
      rw [hMax]; simp [MAX_MESSAGE_PAYLOAD, UINT32_MAX]
    have h2 : ¬ pMax.length > MAX_MESSAGE_PAYLOAD := by rw [hMax]; omega
    refine ⟨?_, ?_, ?_, ?_⟩ <;> simp [RequestAdmit, h1, h2]
  · have h1 : ¬ pOver.length > UINT32_MAX := by
      rw [hOver]; simp [MAX_MESSAGE_PAYLOAD, UINT32_MAX]
    have h2 : pOver.length > MAX_MESSAGE_PAYLOAD := by rw [hOver]; omega
    constructor <;> simp [RequestAdmit, h1, h2]

/-- Witness for C8 with payloads of exactly 16 MiB and 16 MiB + 1. -/
theorem C8_request_payload_boundary_witness :
    ((List.replicate MAX_MESSAGE_PAYLOAD 0).length = MAX_MESSAGE_PAYLOAD) ∧
    ((List.replicate (MAX_MESSAGE_PAYLOAD + 1) 0).length = MAX_MESSAGE_PAYLOAD + 1) ∧
    (((RequestAdmit brokerReq0 7 (List.replicate MAX_MESSAGE_PAYLOAD 0)).err = none ∧
       (RequestAdmit brokerReq0 7 (List.replicate MAX_MESSAGE_PAYLOAD 0)).st.waiters =
         7 :: brokerReq0.waiters ∧
       (RequestAdmit brokerReq0 7 (List.replicate MAX_MESSAGE_PAYLOAD 0)).st.unconfirmed =
         (7, List.replicate MAX_MESSAGE_PAYLOAD 0) :: brokerReq0.unconfirmed ∧
       (RequestAdmit brokerReq0 7 (List.replicate MAX_MESSAGE_PAYLOAD 0)).st.sent =
         brokerReq0.sent ++ [(7, List.replicate MAX_MESSAGE_PAYLOAD 0)]) ∧
      ((RequestAdmit brokerReq0 7 (List.replicate (MAX_MESSAGE_PAYLOAD + 1) 0)).err =
         some .exceedsMaxMessagePayload ∧
       (RequestAdmit brokerReq0 7 (List.replicate (MAX_MESSAGE_PAYLOAD + 1) 0)).st =
         brokerReq0)) :=
  ⟨List.length_replicate _ _, List.length_replicate _ _,
    C8_request_payload_boundary brokerReq0 7 _ _
      (List.length_replicate _ _) (List.length_replicate _ _)⟩

/-- Claim C9: when a `Request` caller's context is cancelled before the
matching Response arrives, the call returns the cancellation result
after removing both the `unconfirmed[id]` and `waiters[id]` entries, so
a Response frame with that id processed later finds no waiter, is
dropped, and is delivered to no caller (state and delivery log are
unchanged). -/
theorem C9_cancel_drops_late_response (st : BrokerReqState)
    (delivered : List (Nat × List Nat)) (id : Nat) (payload : List Nat) :
    (requestOnCtxDone st id).1 = .cancelled ∧
    id ∉ (requestOnCtxDone st id).2.waiters ∧
    (∀ p ∈ (requestOnCtxDone st id).2.unconfirmed, p.1 ≠ id) ∧
    processResponse (requestOnCtxDone st id).2 delivered id payload =
      ((requestOnCtxDone st id).2, delivered) := by
  have hw : id ∉ (requestOnCtxDone st id).2.waiters := by
    simp [requestOnCtxDone, cancelRequest, List.mem_filter]
  refine ⟨rfl, hw, ?_, ?_⟩
  · intro p hp
    have := List.mem_filter.mp hp
    simpa using this.2
  · simp [processResponse, hw]
